import Mathlib

/-!
Verification of the decentralized polling engine specified in spec.md.

The repository ships the Hardhat test suite (src/test/PollTest.js) and the
React client for a Solidity contract `Poll`, but the contract source itself
is not present under src/.  The core state machine below is therefore
modelled from the specification (data model §3, component design §4), with
the observable constants (registration price, valid choice codes, error
kinds) cross-checked against the test suite's expectations.

Solidity `revert` semantics (a failing call rolls every write back) are
embedded by making each operation a total function into `Except`: an
`Except.error` outcome carries no successor state, so a failed call leaves
the store untouched by construction.
-/

namespace Poll571G

/-- Modelled from the spec: error kinds of §7 (validation, authorization
and not-found errors), one per revert message in the reference test
suite. -/
inductive PollError where
  | EmptyName
  | AlreadyRegistered
  | InsufficientFunds
  | WrongExactAmount
  | EmptyDescription
  | ZeroDuration
  | NoChoicesGiven
  | InvalidChoice
  | NotRegistered
  | PollNotFound
  | PollEnded
  | ResultHidden
  | NotFound
deriving DecidableEq, Repr

/-- Modelled from the spec: a Participant (§3) — a non-empty name bound to
the caller identity.  Identities are abstracted as naturals. -/
structure Participant where
  name : String
  identity : Nat
deriving DecidableEq, Repr

/-- Modelled from the spec: a Poll record (§3).  `votes` is the mapping
from participant identity to that participant's single most-recent choice,
kept as an association list in first-vote order. -/
structure Poll where
  pollId : Nat
  name : String
  description : String
  creationTime : Nat
  votingDuration : Nat
  blind : Bool
  aboutDAO : Bool
  choseFrom : List Nat
  votes : List (Nat × Nat)
deriving DecidableEq, Repr

/-- Modelled from the spec: the shared store (§5) — the participant map
and the append-only poll list. -/
structure PollSystem where
  participants : List Participant
  polls : List Poll
deriving DecidableEq, Repr

/-- Modelled from the spec: the empty store a fresh deployment starts
from. -/
def initState : PollSystem := ⟨[], []⟩

/-- Modelled from the spec: the fixed registration price (the test suite
pays exactly 10^17 wei). -/
def registrationPrice : Nat := 100000000000000000

/-- Modelled from the spec: the size of the fixed valid-choice
enumeration; the test suite casts choices 1 and 2 and rejects 7 as out of
the Selection enum's range. -/
def numSelections : Nat := 7

/-- Modelled from the spec: membership in the fixed valid-choice
enumeration (§4.2). -/
def validChoice (c : Nat) : Bool := c < numSelections

/-- Modelled from the spec: `isRegistered` (§4.1), a pure query with no
failure mode. -/
def isRegistered (s : PollSystem) (id : Nat) : Bool :=
  s.participants.any (fun p => p.identity = id)

/-- Modelled from the spec: `register` (§4.1) with its error priority
order — empty name, already registered, amount below price, amount not
exactly the price. -/
def register (s : PollSystem) (name : String) (paidAmount : Nat)
    (caller : Nat) : Except PollError PollSystem :=
  if name = "" then .error .EmptyName
  else if isRegistered s caller then .error .AlreadyRegistered
  else if paidAmount < registrationPrice then .error .InsufficientFunds
  else if paidAmount ≠ registrationPrice then .error .WrongExactAmount
  else .ok { s with participants := s.participants ++ [⟨name, caller⟩] }

/-- Modelled from the spec: `lookup` (§4.1), failing with `NotFound` when
no participant bears that exact name. -/
def lookUpParticipant (s : PollSystem) (name : String) :
    Except PollError Nat :=
  match s.participants.find? (fun p => p.name = name) with
  | some p => .ok p.identity
  | none => .error .NotFound

/-- Modelled from the spec: `numberOfParticipants` — the registered
participant count exposed by the store. -/
def numberOfParticipant (s : PollSystem) : Nat := s.participants.length

/-- Modelled from the spec: `createPoll` (§4.2) with its validation order
(first failing check wins) and the sequential id allocation starting
at 1. -/
def createPoll (s : PollSystem) (name description : String)
    (duration : Nat) (blind aboutDAO : Bool) (choices : List Nat)
    (creator : Nat) (now : Nat) : Except PollError PollSystem :=
  if name = "" then .error .EmptyName
  else if description = "" then .error .EmptyDescription
  else if duration = 0 then .error .ZeroDuration
  else if choices = [] then .error .NoChoicesGiven
  else if ¬ choices.all validChoice then .error .InvalidChoice
  else if ¬ isRegistered s creator then .error .NotRegistered
  else .ok { s with polls := s.polls ++
    [{ pollId := s.polls.length + 1
       name := name
       description := description
       creationTime := now
       votingDuration := duration
       blind := blind
       aboutDAO := aboutDAO
       choseFrom := choices
       votes := [] }] }

/-- Modelled from the spec: `listPolls` (§4.2) — all polls ever created,
in creation order, with no state mutation. -/
def viewAllPolls (s : PollSystem) : List Poll := s.polls

/-- Modelled from the spec: the derived window state of §3 — `InProgress`
while `now < creationTime + votingDuration`, `Ended` afterwards, recomputed
from time on every read. -/
inductive WindowState where
  | InProgress
  | Ended
deriving DecidableEq, Repr

/-- Modelled from the spec: the pure window-state function of §4.3's state
machine. -/
def windowState (p : Poll) (now : Nat) : WindowState :=
  if now < p.creationTime + p.votingDuration then .InProgress else .Ended

/-- Modelled from the spec: looking a poll up by id. -/
def findPoll (s : PollSystem) (pollId : Nat) : Option Poll :=
  s.polls.find? (fun p => p.pollId = pollId)

/-- Modelled from the spec: overwriting insertion into the vote map —
re-voting replaces the voter's entry, a first vote appends it. -/
def setVote (votes : List (Nat × Nat)) (voter choice : Nat) :
    List (Nat × Nat) :=
  match votes with
  | [] => [(voter, choice)]
  | (v, c) :: rest =>
    if v = voter then (v, choice) :: rest
    else (v, c) :: setVote rest voter choice

/-- Modelled from the spec: the current choice of a voter in a vote map,
if any. -/
def getVote (votes : List (Nat × Nat)) (voter : Nat) : Option Nat :=
  (votes.find? (fun vc => vc.1 = voter)).map (fun vc => vc.2)

/-- Modelled from the spec: `vote` (§4.3) with its validation order —
poll exists, window open, voter registered — and the overwrite effect on
`votes`. -/
def vote (s : PollSystem) (pollId choice voter now : Nat) :
    Except PollError PollSystem :=
  match findPoll s pollId with
  | none => .error .PollNotFound
  | some p =>
    if p.creationTime + p.votingDuration ≤ now then .error .PollEnded
    else if ¬ isRegistered s voter then .error .NotRegistered
    else .ok { s with polls := s.polls.map (fun q =>
        if q.pollId = pollId then
          { q with votes := setVote q.votes voter choice }
        else q) }

/-- Modelled from the spec: the per-choice vote count of the derived
VoteTally (§3). -/
def countVotes (votes : List (Nat × Nat)) (choice : Nat) : Nat :=
  (votes.filter (fun vc => vc.2 = choice)).length

/-- Modelled from the spec: insertion into an ascending list, used to
order `winners` ascending by choice identifier (§4.3). -/
def insertAsc (x : Nat) : List Nat → List Nat
  | [] => [x]
  | y :: ys => if x ≤ y then x :: y :: ys else y :: insertAsc x ys

/-- Modelled from the spec: ascending insertion sort. -/
def sortAsc (l : List Nat) : List Nat := l.foldr insertAsc []

/-- Modelled from the spec: the distinct choices currently carrying at
least one vote. -/
def distinctChoices (l : List Nat) : List Nat :=
  l.foldr (fun x acc => if x ∈ acc then acc else x :: acc) []

/-- Modelled from the spec: the distinct voted choices in ascending
order. -/
def choiceList (votes : List (Nat × Nat)) : List Nat :=
  sortAsc (distinctChoices (votes.map Prod.snd))

/-- Modelled from the spec: the maximum vote count over the voted
choices (0 when no votes have been cast). -/
def maxVoteCount (votes : List (Nat × Nat)) : Nat :=
  ((votes.map Prod.snd).map (countVotes votes)).foldr Nat.max 0

/-- Modelled from the spec: `winners` — the full set of choices sharing
the maximum vote count, ascending by choice identifier; empty when no
votes have been cast. -/
def winnersOf (votes : List (Nat × Nat)) : List Nat :=
  (choiceList votes).filter (fun c => countVotes votes c = maxVoteCount votes)

/-- Modelled from the spec: the outcome record `{tie, winners,
windowState, blind}` of `computeResult` (§4.3, §6). -/
structure PollOutcome where
  tie : Bool
  winners : List Nat
  window : WindowState
  blind : Bool
deriving DecidableEq, Repr

/-- Modelled from the spec: `computeResult` (§4.3) — poll must exist,
a blind poll hides its tally while in progress, otherwise the tally is
recomputed from `votes` alone and reported. -/
def computeResult (s : PollSystem) (pollId now : Nat) :
    Except PollError PollOutcome :=
  match findPoll s pollId with
  | none => .error .PollNotFound
  | some p =>
    let ws := windowState p now
    if p.blind ∧ ws = .InProgress then .error .ResultHidden
    else
      let w := winnersOf p.votes
      .ok ⟨decide (1 < w.length), w, ws, p.blind⟩

/-- Modelled from the spec: one successful state transition of the
serialized ledger (§5). -/
inductive Step : PollSystem → PollSystem → Prop where
  | reg (s : PollSystem) (n : String) (a c : Nat) (s' : PollSystem)
      (h : register s n a c = .ok s') : Step s s'
  | create (s : PollSystem) (n d : String) (dur : Nat) (b ad : Bool)
      (ch : List Nat) (cr now : Nat) (s' : PollSystem)
      (h : createPoll s n d dur b ad ch cr now = .ok s') : Step s s'
  | cast (s : PollSystem) (pid c v now : Nat) (s' : PollSystem)
      (h : vote s pid c v now = .ok s') : Step s s'

/-- Modelled from the spec: the states reachable from a fresh deployment
by serialized successful operations. -/
inductive Reachable : PollSystem → Prop where
  | init : Reachable initState
  | step {s s' : PollSystem} : Reachable s → Step s s' → Reachable s'

/-- Modelled from the spec: revert semantics — the state a call leaves
behind is the new state on success and the unchanged old state on
failure. -/
def commit (s : PollSystem) (r : Except PollError PollSystem) : PollSystem :=
  match r with
  | .ok s' => s'
  | .error _ => s

/-- Modelled from the spec: the number of live vote entries a voter holds
in a vote map (the at-most-one-live-vote invariant speaks about this). -/
def liveVotes (votes : List (Nat × Nat)) (voter : Nat) : Nat :=
  (votes.filter (fun vc => vc.1 = voter)).length

theorem insertAsc_perm (x : Nat) (l : List Nat) :
    (insertAsc x l).Perm (x :: l) := by
  induction l with
  | nil => simp [insertAsc]
  | cons y ys ih =>
    simp only [insertAsc]
    by_cases h : x ≤ y
    · simp [h]
    · simp only [h, if_false]
      exact (ih.cons y).trans (List.Perm.swap x y ys)

theorem sortAsc_perm (l : List Nat) : (sortAsc l).Perm l := by
  induction l with
  | nil => simp [sortAsc]
  | cons x xs ih =>
    simpa [sortAsc] using (insertAsc_perm x (sortAsc xs)).trans (ih.cons x)

theorem mem_insertAsc (x a : Nat) (l : List Nat) :
    a ∈ insertAsc x l ↔ a = x ∨ a ∈ l := by
  rw [(insertAsc_perm x l).mem_iff]
  simp

theorem insertAsc_sorted (x : Nat) (l : List Nat)
    (h : l.Pairwise (· ≤ ·)) : (insertAsc x l).Pairwise (· ≤ ·) := by
  induction l with
  | nil => simp [insertAsc]
  | cons y ys ih =>
    rw [List.pairwise_cons] at h
    simp only [insertAsc]
    by_cases hxy : x ≤ y
    · rw [if_pos hxy, List.pairwise_cons]
      refine ⟨?_, List.pairwise_cons.mpr h⟩
      intro b hb
      rcases List.mem_cons.mp hb with hb | hb
      · subst hb
        exact hxy
      · exact le_trans hxy (h.1 b hb)
    · rw [if_neg hxy, List.pairwise_cons]
      refine ⟨?_, ih h.2⟩
      intro b hb
      rcases (mem_insertAsc x b ys).mp hb with hb | hb
      · subst hb
        exact le_of_not_le hxy
      · exact h.1 b hb

theorem sortAsc_sorted (l : List Nat) : (sortAsc l).Pairwise (· ≤ ·) := by
  induction l with
  | nil => simp [sortAsc]
  | cons x xs ih => exact insertAsc_sorted x (sortAsc xs) ih

theorem distinctChoices_cons (x : Nat) (xs : List Nat) :
    distinctChoices (x :: xs) =
      if x ∈ distinctChoices xs then distinctChoices xs
      else x :: distinctChoices xs := rfl

theorem mem_distinctChoices (a : Nat) (l : List Nat) :
    a ∈ distinctChoices l ↔ a ∈ l := by
  induction l with
  | nil => simp [distinctChoices]
  | cons x xs ih =>
    rw [distinctChoices_cons]
    by_cases hx : x ∈ distinctChoices xs
    · rw [if_pos hx]
      constructor
      · intro h
        exact List.mem_cons_of_mem x (ih.mp h)
      · intro h
        rcases List.mem_cons.mp h with h | h
        · subst h
          exact hx
        · exact ih.mpr h
    · rw [if_neg hx]
      simp only [List.mem_cons, ih]

theorem nodup_distinctChoices (l : List Nat) : (distinctChoices l).Nodup := by
  induction l with
  | nil => simp [distinctChoices]
  | cons x xs ih =>
    rw [distinctChoices_cons]
    by_cases hx : x ∈ distinctChoices xs
    · rw [if_pos hx]
      exact ih
    · rw [if_neg hx]
      exact List.Nodup.cons hx ih

theorem mem_choiceList (c : Nat) (votes : List (Nat × Nat)) :
    c ∈ choiceList votes ↔ c ∈ votes.map Prod.snd := by
  rw [choiceList, (sortAsc_perm _).mem_iff, mem_distinctChoices]

theorem choiceList_sorted (votes : List (Nat × Nat)) :
    (choiceList votes).Pairwise (· < ·) := by
  have hnd : (choiceList votes).Nodup :=
    (sortAsc_perm _).nodup_iff.mpr (nodup_distinctChoices _)
  have hle : (choiceList votes).Pairwise (· ≤ ·) := sortAsc_sorted _
  exact (hle.and hnd).imp (fun h => lt_of_le_of_ne h.1 h.2)

theorem countVotes_pos_iff (votes : List (Nat × Nat)) (c : Nat) :
    0 < countVotes votes c ↔ c ∈ votes.map Prod.snd := by
  rw [countVotes, List.length_pos]
  constructor
  · intro h
    rcases List.exists_mem_of_ne_nil _ h with ⟨vc, hvc⟩
    have := List.mem_filter.mp hvc
    exact List.mem_map.mpr ⟨vc, this.1, by simpa using this.2⟩
  · intro h
    rcases List.mem_map.mp h with ⟨vc, hvc, hc⟩
    intro hnil
    have : vc ∈ votes.filter (fun vc => vc.2 = c) :=
      List.mem_filter.mpr ⟨hvc, by simpa using hc⟩
    simp [hnil] at this

theorem le_foldr_max (a : Nat) (l : List Nat) (h : a ∈ l) :
    a ≤ l.foldr Nat.max 0 := by
  induction l with
  | nil => cases h
  | cons x xs ih =>
    rcases List.mem_cons.mp h with h | h
    · subst h
      exact Nat.le_max_left _ _
    · exact le_trans (ih h) (Nat.le_max_right _ _)

theorem foldr_max_mem (l : List Nat) :
    l.foldr Nat.max 0 ∈ l ∨ l.foldr Nat.max 0 = 0 := by
  induction l with
  | nil => simp
  | cons x xs ih =>
    simp only [List.foldr_cons]
    rcases Nat.le_total x (xs.foldr Nat.max 0) with h | h
    · have hx : Nat.max x (xs.foldr Nat.max 0) = xs.foldr Nat.max 0 :=
        Nat.max_eq_right h
      rw [hx]
      rcases ih with ih | ih
      · exact .inl (List.mem_cons_of_mem x ih)
      · exact .inr ih
    · have hx : Nat.max x (xs.foldr Nat.max 0) = x := Nat.max_eq_left h
      rw [hx]
      exact .inl (List.mem_cons_self x xs)

theorem countVotes_le_max (votes : List (Nat × Nat)) (d : Nat) :
    countVotes votes d ≤ maxVoteCount votes := by
  by_cases h : d ∈ votes.map Prod.snd
  · exact le_foldr_max _ _ (List.mem_map_of_mem (countVotes votes) h)
  · have : countVotes votes d = 0 := by
      by_contra hc
      exact h ((countVotes_pos_iff votes d).mp (Nat.pos_of_ne_zero hc))
    simp [this]

theorem maxVoteCount_achieved (votes : List (Nat × Nat))
    (h : votes ≠ []) :
    ∃ c ∈ votes.map Prod.snd, countVotes votes c = maxVoteCount votes := by
  rcases foldr_max_mem ((votes.map Prod.snd).map (countVotes votes)) with
    hm | hm
  · rcases List.mem_map.mp hm with ⟨c, hc, hcount⟩
    exact ⟨c, hc, hcount⟩
  · rcases List.exists_mem_of_ne_nil votes h with ⟨vc, hvc⟩
    have hpos : 0 < countVotes votes vc.2 :=
      (countVotes_pos_iff votes vc.2).mpr (List.mem_map_of_mem Prod.snd hvc)
    have hle : countVotes votes vc.2 ≤ maxVoteCount votes :=
      countVotes_le_max votes vc.2
    rw [maxVoteCount] at *
    omega

theorem mem_winnersOf (votes : List (Nat × Nat)) (c : Nat) :
    c ∈ winnersOf votes ↔
      0 < countVotes votes c ∧
        ∀ d, countVotes votes d ≤ countVotes votes c := by
  rw [winnersOf, List.mem_filter]
  constructor
  · rintro ⟨hmem, hcount⟩
    have hc : countVotes votes c = maxVoteCount votes := by simpa using hcount
    refine ⟨(countVotes_pos_iff votes c).mpr ((mem_choiceList c votes).mp hmem),
      fun d => hc ▸ countVotes_le_max votes d⟩
  · rintro ⟨hpos, hmax⟩
    have hmem : c ∈ votes.map Prod.snd := (countVotes_pos_iff votes c).mp hpos
    have hne : votes ≠ [] := by
      intro h
      subst h
      simp at hmem
    rcases maxVoteCount_achieved votes hne with ⟨e, _, he⟩
    have h1 : countVotes votes c ≤ maxVoteCount votes :=
      countVotes_le_max votes c
    have h2 : maxVoteCount votes ≤ countVotes votes c := he ▸ hmax e
    refine ⟨(mem_choiceList c votes).mpr hmem, by simp; omega⟩

theorem winnersOf_sorted (votes : List (Nat × Nat)) :
    (winnersOf votes).Pairwise (· < ·) :=
  (choiceList_sorted votes).sublist (List.filter_sublist _)

theorem winnersOf_nil : winnersOf [] = [] := rfl

theorem getVote_setVote_same (votes : List (Nat × Nat)) (v c : Nat) :
    getVote (setVote votes v c) v = some c := by
  induction votes with
  | nil => simp [setVote, getVote, List.find?]
  | cons vc rest ih =>
    obtain ⟨w, d⟩ := vc
    simp only [setVote]
    by_cases h : w = v
    · subst h
      simp [getVote, List.find?]
    · simp only [if_neg h]
      simpa [getVote, List.find?, h] using ih

theorem getVote_setVote_other (votes : List (Nat × Nat)) (v c w : Nat)
    (h : w ≠ v) : getVote (setVote votes v c) w = getVote votes w := by
  induction votes with
  | nil => simp [setVote, getVote, List.find?, Ne.symm h]
  | cons vc rest ih =>
    obtain ⟨u, d⟩ := vc
    simp only [setVote]
    by_cases hu : u = v
    · subst hu
      have : u ≠ w := fun he => h he.symm
      simp [getVote, List.find?, this]
    · simp only [if_neg hu]
      by_cases huw : u = w
      · subst huw
        simp [getVote, List.find?]
      · simpa [getVote, List.find?, huw] using ih

theorem setVote_override (votes : List (Nat × Nat)) (v c₁ c₂ : Nat) :
    setVote (setVote votes v c₁) v c₂ = setVote votes v c₂ := by
  induction votes with
  | nil => simp [setVote]
  | cons vc rest ih =>
    obtain ⟨w, d⟩ := vc
    simp only [setVote]
    by_cases h : w = v
    · simp [setVote, h]
    · simp [setVote, h, ih]

theorem liveVotes_setVote (votes : List (Nat × Nat)) (v c : Nat) :
    liveVotes (setVote votes v c) v = Nat.max (liveVotes votes v) 1 := by
  induction votes with
  | nil => simp [setVote, liveVotes]
  | cons vc rest ih =>
    obtain ⟨w, d⟩ := vc
    simp only [setVote]
    by_cases h : w = v
    · subst h
      simp only [if_pos rfl, liveVotes, List.filter_cons, decide_eq_true_eq,
        if_pos rfl]
      simp only [liveVotes] at *
      have hle : 1 ≤ (rest.filter (fun vc => vc.1 = w)).length + 1 :=
        Nat.le_add_left 1 _
      simp [Nat.max_eq_left hle]
    · simp only [if_neg h, liveVotes, List.filter_cons] at *
      simp only [decide_eq_true_eq, if_neg h]
      exact ih

/-- Finding by poll id through an id-preserving pointwise update returns
the update of what the plain lookup finds. -/
theorem find?_map_update (l : List Poll) (pid : Nat) (g : Poll → Poll)
    (hg : ∀ q, (g q).pollId = q.pollId) :
    (l.map (fun q => if q.pollId = pid then g q else q)).find?
        (fun q => q.pollId = pid)
      = (l.find? (fun q => q.pollId = pid)).map g := by
  induction l with
  | nil => simp
  | cons q rest ih =>
    by_cases h : q.pollId = pid
    · simp only [List.map_cons, if_pos h]
      rw [List.find?_cons_of_pos _ (by simpa [hg q] using h),
        List.find?_cons_of_pos _ (by simpa using h)]
      simp
    · simp only [List.map_cons, if_neg h]
      rw [List.find?_cons_of_neg _ (by simpa using h),
        List.find?_cons_of_neg _ (by simpa using h)]
      exact ih

theorem register_ok_inv {s s' : PollSystem} {n : String} {a c : Nat}
    (h : register s n a c = .ok s') :
    s' = { s with participants := s.participants ++ [⟨n, c⟩] }
      ∧ n ≠ "" ∧ isRegistered s c = false ∧ a = registrationPrice := by
  rw [register] at h
  split_ifs at h with h1 h2 h3 h4
  cases h
  exact ⟨rfl, h1, by simpa using h2, by omega⟩

theorem createPoll_ok_inv {s s' : PollSystem} {n d : String} {dur : Nat}
    {b ad : Bool} {ch : List Nat} {cr now : Nat}
    (h : createPoll s n d dur b ad ch cr now = .ok s') :
    s' = { s with polls := s.polls ++
        [{ pollId := s.polls.length + 1
           name := n
           description := d
           creationTime := now
           votingDuration := dur
           blind := b
           aboutDAO := ad
           choseFrom := ch
           votes := [] }] }
      ∧ n ≠ "" ∧ d ≠ "" ∧ dur ≠ 0 ∧ ch ≠ []
      ∧ ch.all validChoice = true ∧ isRegistered s cr = true := by
  rw [createPoll] at h
  split_ifs at h with h1 h2 h3 h4 h5 h6
  cases h
  exact ⟨rfl, h1, h2, h3, h4, by simpa using h5, by simpa using h6⟩

theorem vote_ok_inv {s s' : PollSystem} {pid c v now : Nat}
    (h : vote s pid c v now = .ok s') :
    ∃ p, findPoll s pid = some p
      ∧ now < p.creationTime + p.votingDuration
      ∧ isRegistered s v = true
      ∧ s' = { s with polls := s.polls.map (fun q =>
          if q.pollId = pid then { q with votes := setVote q.votes v c }
          else q) } := by
  rw [vote] at h
  rcases hp : findPoll s pid with _ | p
  · rw [hp] at h
    cases h
  · rw [hp] at h
    dsimp only at h
    split_ifs at h with h1 h2
    cases h
    exact ⟨p, rfl, by omega, h2, rfl⟩

theorem computeResult_eq {s : PollSystem} {pid now : Nat} {p : Poll}
    (hp : findPoll s pid = some p) :
    computeResult s pid now =
      if p.blind ∧ windowState p now = .InProgress then .error .ResultHidden
      else .ok ⟨decide (1 < (winnersOf p.votes).length), winnersOf p.votes,
        windowState p now, p.blind⟩ := by
  rw [computeResult, hp]

/-- Concrete test scenario mirroring the reference suite: four registered
participants, one open non-blind poll created at time 100 with duration
10, votes 1, 2, 2. -/
def pollA : Poll :=
  ⟨1, "Poll", "Test poll", 100, 10, false, true, [1, 2],
    [(1, 1), (2, 2), (3, 2)]⟩

/-- The store holding `pollA` and the four registered participants. -/
def sysA : PollSystem :=
  ⟨[⟨"Ross", 0⟩, ⟨"Monica", 1⟩, ⟨"Rachel", 2⟩, ⟨"Joey", 3⟩], [pollA]⟩

/-- The blind variant of the same scenario. -/
def pollB : Poll :=
  ⟨1, "Poll", "Test poll", 100, 10, true, true, [1, 2],
    [(1, 1), (2, 2), (3, 2)]⟩

/-- The store holding `pollB` and the four registered participants. -/
def sysB : PollSystem :=
  ⟨[⟨"Ross", 0⟩, ⟨"Monica", 1⟩, ⟨"Rachel", 2⟩, ⟨"Joey", 3⟩], [pollB]⟩

/-- C1: a successful computeResult returns winners equal to exactly the
set of choices achieving the maximum vote count, in ascending order of
choice identifier, with tie true iff more than one choice attains that
maximum, and with winners = [] and tie = false when zero votes have been
cast. -/
theorem computeResult_winners_spec (s : PollSystem) (pid now : Nat)
    (p : Poll) (r : PollOutcome)
    (hp : findPoll s pid = some p)
    (hr : computeResult s pid now = Except.ok r) :
    (∀ c, c ∈ r.winners ↔
        0 < countVotes p.votes c ∧
          ∀ d, countVotes p.votes d ≤ countVotes p.votes c)
    ∧ r.winners.Pairwise (· < ·)
    ∧ (r.tie = true ↔ 1 < r.winners.length)
    ∧ (p.votes = [] → r.winners = [] ∧ r.tie = false) := by
  rw [computeResult_eq hp] at hr
  split_ifs at hr with hb
  cases hr
  refine ⟨fun c => mem_winnersOf p.votes c, winnersOf_sorted p.votes,
    by simp, ?_⟩
  intro hv
  rw [hv]
  exact ⟨winnersOf_nil, by simp [winnersOf_nil]⟩

/-- Witness for C1 on the concrete scenario: computeResult succeeds and
the tie flag agrees with the winner count. -/
theorem computeResult_winners_spec_witness :
    computeResult sysA 1 105 =
        Except.ok ⟨false, [2], .InProgress, false⟩
      ∧ ((false : Bool) = true ↔
          1 < ([2] : List Nat).length) :=
  ⟨rfl, (computeResult_winners_spec sysA 1 105 pollA
      ⟨false, [2], .InProgress, false⟩ rfl rfl).2.2.1⟩

/-- C2: a blind poll's computeResult fails with ResultHidden while the
window is in progress and succeeds with the tally recomputed from the
votes once ended; a non-blind poll's computeResult succeeds even while in
progress, reporting the running tally. -/
theorem computeResult_blind_gating (s : PollSystem) (pid now : Nat)
    (p : Poll) (hp : findPoll s pid = some p) :
    (p.blind = true → windowState p now = .InProgress →
        computeResult s pid now = .error .ResultHidden)
    ∧ (p.blind = true → windowState p now = .Ended →
        computeResult s pid now =
          .ok ⟨decide (1 < (winnersOf p.votes).length), winnersOf p.votes,
            .Ended, true⟩)
    ∧ (p.blind = false →
        computeResult s pid now =
          .ok ⟨decide (1 < (winnersOf p.votes).length), winnersOf p.votes,
            windowState p now, false⟩) := by
  refine ⟨?_, ?_, ?_⟩
  · intro hb hw
    rw [computeResult_eq hp, if_pos ⟨by simp [hb], hw⟩]
  · intro hb hw
    rw [computeResult_eq hp, if_neg ?_, hw, hb]
    rintro ⟨_, hcontra⟩
    rw [hw] at hcontra
    cases hcontra
  · intro hb
    rw [computeResult_eq hp, if_neg ?_, hb]
    rintro ⟨hcontra, _⟩
    rw [hb] at hcontra
    cases hcontra

/-- Witness for C2 on the blind scenario: hidden at time 105 (window
open), revealed with the correct tally at time 111 (window closed), and
the non-blind scenario reports the running tally at time 105. -/
theorem computeResult_blind_gating_witness :
    computeResult sysB 1 105 = Except.error .ResultHidden
    ∧ computeResult sysB 1 111 = Except.ok ⟨false, [2], .Ended, true⟩
    ∧ computeResult sysA 1 105 =
        Except.ok ⟨false, [2], .InProgress, false⟩ := by
  refine ⟨(computeResult_blind_gating sysB 1 105 pollB rfl).1 rfl (by decide),
    ?_, ?_⟩
  · rw [(computeResult_blind_gating sysB 1 111 pollB rfl).2.1 rfl (by decide)]
    rfl
  · rw [(computeResult_blind_gating sysA 1 105 pollA rfl).2.2 rfl]
    rfl

theorem vote_eq_of_found {s : PollSystem} {pid : Nat} {p : Poll}
    (hp : findPoll s pid = some p) (choice voter now : Nat) :
    vote s pid choice voter now =
      if p.creationTime + p.votingDuration ≤ now then .error .PollEnded
      else if ¬ isRegistered s voter then .error .NotRegistered
      else .ok { s with polls := s.polls.map (fun q =>
          if q.pollId = pid then
            { q with votes := setVote q.votes voter choice }
          else q) } := by
  rw [vote, hp]

theorem map_update_update (l : List Poll) (pid voter c₁ c₂ : Nat) :
    ((l.map (fun q => if q.pollId = pid then
          { q with votes := setVote q.votes voter c₁ } else q)).map
        (fun q => if q.pollId = pid then
          { q with votes := setVote q.votes voter c₂ } else q))
      = l.map (fun q => if q.pollId = pid then
          { q with votes := setVote q.votes voter c₂ } else q) := by
  rw [List.map_map]
  apply List.map_congr_left
  intro q _
  by_cases hq : q.pollId = pid
  · simp only [Function.comp_apply, if_pos hq]
    rw [setVote_override]
  · simp only [Function.comp_apply, if_neg hq]

theorem findPoll_after_vote {s s' : PollSystem} {pid c v now : Nat} {p : Poll}
    (hv : vote s pid c v now = .ok s') (hp : findPoll s pid = some p) :
    findPoll s' pid = some { p with votes := setVote p.votes v c } := by
  obtain ⟨p', hp', _, _, hs'⟩ := vote_ok_inv hv
  rw [hp] at hp'
  cases hp'
  subst hs'
  show (s.polls.map _).find? _ = _
  rw [find?_map_update s.polls pid
    (fun q => { q with votes := setVote q.votes v c }) (fun q => rfl)]
  rw [show (s.polls.find? fun q => q.pollId = pid) = some p from hp]
  rfl

/-- Re-voting through an intermediate successful vote is the same as
voting directly: the earlier vote is fully replaced. -/
theorem vote_revote (s s' : PollSystem) (pid choice voter now : Nat)
    (hv : vote s pid choice voter now = .ok s') (c₂ : Nat) :
    vote s' pid c₂ voter now = vote s pid c₂ voter now := by
  obtain ⟨p, hp, hopen, hreg, hs'⟩ := vote_ok_inv hv
  have hfind : findPoll s' pid =
      some { p with votes := setVote p.votes voter choice } :=
    findPoll_after_vote hv hp
  rw [vote_eq_of_found hfind c₂ voter now, vote_eq_of_found hp c₂ voter now]
  subst hs'
  dsimp only
  rw [if_neg (show ¬(p.creationTime + p.votingDuration ≤ now) from by omega),
    if_neg (show ¬(p.creationTime + p.votingDuration ≤ now) from by omega)]
  simp only [isRegistered] at hreg ⊢
  simp only [hreg, not_true_eq_false, if_false, ite_false]
  rw [map_update_update]

/-- C3: a successful vote sets the voter's entry to the chosen option,
overwriting any prior vote (other voters' entries are untouched and the
voter keeps at most one live vote), re-invocation with the same choice is
idempotent, and re-voting any other choice before the window closes fully
replaces the earlier vote. -/
theorem vote_overwrite_spec (s s' : PollSystem) (pid choice voter now : Nat)
    (p : Poll)
    (hv : vote s pid choice voter now = .ok s')
    (hp : findPoll s pid = some p) :
    findPoll s' pid = some { p with votes := setVote p.votes voter choice }
    ∧ getVote (setVote p.votes voter choice) voter = some choice
    ∧ (∀ w, w ≠ voter →
        getVote (setVote p.votes voter choice) w = getVote p.votes w)
    ∧ (liveVotes p.votes voter ≤ 1 →
        liveVotes (setVote p.votes voter choice) voter = 1)
    ∧ vote s' pid choice voter now = .ok s'
    ∧ (∀ c₂, vote s' pid c₂ voter now = vote s pid c₂ voter now) := by
  refine ⟨findPoll_after_vote hv hp, getVote_setVote_same p.votes voter choice,
    fun w hw => getVote_setVote_other p.votes voter choice w hw, ?_,
    (vote_revote s s' pid choice voter now hv choice).trans hv, ?_⟩
  · intro hle
    rw [liveVotes_setVote]
    exact Nat.max_eq_right hle
  · exact fun c₂ => vote_revote s s' pid choice voter now hv c₂

/-- Witness for C3: participant 1 re-votes from 1 to 2 in the open
non-blind scenario poll. -/
theorem vote_overwrite_spec_witness :
    vote sysA 1 2 1 105 =
      Except.ok ⟨sysA.participants,
        [{ pollA with votes := [(1, 2), (2, 2), (3, 2)] }]⟩
    ∧ getVote (setVote pollA.votes 1 2) 1 = some 2 := by
  have h := vote_overwrite_spec sysA
    ⟨sysA.participants, [{ pollA with votes := [(1, 2), (2, 2), (3, 2)] }]⟩
    1 2 1 105 pollA rfl rfl
  exact ⟨rfl, h.2.1⟩

/-- C4: vote's checks run in order — unknown poll id fails with
PollNotFound, then a closed window fails with PollEnded, then an
unregistered voter fails with NotRegistered, and otherwise the vote
succeeds. -/
theorem vote_validation_order (s : PollSystem) (pid choice voter now : Nat) :
    (findPoll s pid = none →
        vote s pid choice voter now = .error .PollNotFound)
    ∧ (∀ p, findPoll s pid = some p →
        p.creationTime + p.votingDuration ≤ now →
        vote s pid choice voter now = .error .PollEnded)
    ∧ (∀ p, findPoll s pid = some p →
        now < p.creationTime + p.votingDuration →
        isRegistered s voter = false →
        vote s pid choice voter now = .error .NotRegistered)
    ∧ (∀ p, findPoll s pid = some p →
        now < p.creationTime + p.votingDuration →
        isRegistered s voter = true →
        ∃ s', vote s pid choice voter now = .ok s') := by
  refine ⟨?_, ?_, ?_, ?_⟩
  · intro hp
    rw [vote, hp]
  · intro p hp hend
    rw [vote, hp]
    dsimp only
    rw [if_pos hend]
  · intro p hp hopen hreg
    rw [vote, hp]
    dsimp only
    rw [if_neg (by omega), if_pos (by simp [hreg])]
  · intro p hp hopen hreg
    refine ⟨{ s with polls := s.polls.map (fun q =>
        if q.pollId = pid then
          { q with votes := setVote q.votes voter choice }
        else q) }, ?_⟩
    rw [vote_eq_of_found hp]
    rw [if_neg (by omega), if_neg (by simp [hreg])]

/-- Witness for C4: in the concrete scenario, poll 2 does not exist, poll
1 rejects votes at time 111 with PollEnded, an unregistered voter (9) is
rejected at time 105, and a registered one succeeds. -/
theorem vote_validation_order_witness :
    vote sysA 2 1 1 105 = Except.error .PollNotFound
    ∧ vote sysA 1 1 1 111 = Except.error .PollEnded
    ∧ vote sysA 1 1 9 105 = Except.error .NotRegistered
    ∧ ∃ s', vote sysA 1 1 1 105 = Except.ok s' := by
  refine ⟨(vote_validation_order sysA 2 1 1 105).1 rfl,
    (vote_validation_order sysA 1 1 1 111).2.1 pollA rfl (by decide),
    (vote_validation_order sysA 1 1 9 105).2.2.1 pollA rfl (by decide)
      (by decide),
    (vote_validation_order sysA 1 1 1 105).2.2.2 pollA rfl (by decide)
      (by decide)⟩

/-- C5: createPoll's checks run in the fixed order empty name, empty
description, zero duration, empty choice list, out-of-enumeration choice,
unregistered creator — the first failing check determines the error — and
every failure leaves the store (in particular the poll list)
unchanged. -/
theorem createPoll_validation_order (s : PollSystem) (n d : String)
    (dur : Nat) (b ad : Bool) (ch : List Nat) (cr now : Nat) :
    (n = "" → createPoll s n d dur b ad ch cr now = .error .EmptyName)
    ∧ (n ≠ "" → d = "" →
        createPoll s n d dur b ad ch cr now = .error .EmptyDescription)
    ∧ (n ≠ "" → d ≠ "" → dur = 0 →
        createPoll s n d dur b ad ch cr now = .error .ZeroDuration)
    ∧ (n ≠ "" → d ≠ "" → dur ≠ 0 → ch = [] →
        createPoll s n d dur b ad ch cr now = .error .NoChoicesGiven)
    ∧ (n ≠ "" → d ≠ "" → dur ≠ 0 → ch ≠ [] →
        ch.all validChoice = false →
        createPoll s n d dur b ad ch cr now = .error .InvalidChoice)
    ∧ (n ≠ "" → d ≠ "" → dur ≠ 0 → ch ≠ [] →
        ch.all validChoice = true → isRegistered s cr = false →
        createPoll s n d dur b ad ch cr now = .error .NotRegistered)
    ∧ (∀ e, createPoll s n d dur b ad ch cr now = .error e →
        commit s (createPoll s n d dur b ad ch cr now) = s) := by
  refine ⟨?_, ?_, ?_, ?_, ?_, ?_, ?_⟩
  · intro h1
    rw [createPoll, if_pos h1]
  · intro h1 h2
    rw [createPoll, if_neg h1, if_pos h2]
  · intro h1 h2 h3
    rw [createPoll, if_neg h1, if_neg h2, if_pos h3]
  · intro h1 h2 h3 h4
    rw [createPoll, if_neg h1, if_neg h2, if_neg h3, if_pos h4]
  · intro h1 h2 h3 h4 h5
    rw [createPoll, if_neg h1, if_neg h2, if_neg h3, if_neg h4,
      if_pos (by simp [h5])]
  · intro h1 h2 h3 h4 h5 h6
    rw [createPoll, if_neg h1, if_neg h2, if_neg h3, if_neg h4,
      if_neg (by simp [h5]), if_pos (by simp [h6])]
  · intro e he
    rw [he]
    rfl

/-- Witness for C5: each failing createPoll call from the test suite
yields the expected error on the concrete scenario store, and the failure
leaves the store unchanged. -/
theorem createPoll_validation_order_witness :
    createPoll sysA "" "Test poll" 10 true true [1, 2] 0 100 =
        Except.error .EmptyName
    ∧ createPoll sysA "Poll" "" 10 true true [1, 2] 0 100 =
        Except.error .EmptyDescription
    ∧ createPoll sysA "Poll" "Test poll" 0 true true [1, 2] 0 100 =
        Except.error .ZeroDuration
    ∧ createPoll sysA "Poll" "Test poll" 10 true true [] 0 100 =
        Except.error .NoChoicesGiven
    ∧ createPoll sysA "Poll" "Test poll" 10 true true [7] 0 100 =
        Except.error .InvalidChoice
    ∧ createPoll sysA "Poll" "Test poll" 10 true true [1, 2] 9 100 =
        Except.error .NotRegistered
    ∧ commit sysA (createPoll sysA "" "Test poll" 10 true true [1, 2] 0 100)
        = sysA := by
  refine ⟨(createPoll_validation_order sysA "" "Test poll" 10 true true
      [1, 2] 0 100).1 rfl,
    (createPoll_validation_order sysA "Poll" "" 10 true true
      [1, 2] 0 100).2.1 (by decide) rfl,
    (createPoll_validation_order sysA "Poll" "Test poll" 0 true true
      [1, 2] 0 100).2.2.1 (by decide) (by decide) rfl,
    (createPoll_validation_order sysA "Poll" "Test poll" 10 true true
      [] 0 100).2.2.2.1 (by decide) (by decide) (by decide) rfl,
    (createPoll_validation_order sysA "Poll" "Test poll" 10 true true
      [7] 0 100).2.2.2.2.1 (by decide) (by decide) (by decide) (by decide)
      (by decide),
    (createPoll_validation_order sysA "Poll" "Test poll" 10 true true
      [1, 2] 9 100).2.2.2.2.2.1 (by decide) (by decide) (by decide)
      (by decide) (by decide) (by decide),
    (createPoll_validation_order sysA "" "Test poll" 10 true true
      [1, 2] 0 100).2.2.2.2.2.2 .EmptyName
      ((createPoll_validation_order sysA "" "Test poll" 10 true true
        [1, 2] 0 100).1 rfl)⟩

/-- C6: register's checks run in the priority order empty name, already
registered, amount below price, amount above (otherwise not equal to)
price, and registration succeeds exactly when the payment equals the
fixed price. -/
theorem register_validation_order (s : PollSystem) (n : String)
    (a c : Nat) :
    (n = "" → register s n a c = .error .EmptyName)
    ∧ (n ≠ "" → isRegistered s c = true →
        register s n a c = .error .AlreadyRegistered)
    ∧ (n ≠ "" → isRegistered s c = false → a < registrationPrice →
        register s n a c = .error .InsufficientFunds)
    ∧ (n ≠ "" → isRegistered s c = false → registrationPrice < a →
        register s n a c = .error .WrongExactAmount)
    ∧ (∀ s', register s n a c = .ok s' → a = registrationPrice)
    ∧ (n ≠ "" → isRegistered s c = false → a = registrationPrice →
        ∃ s', register s n a c = .ok s') := by
  refine ⟨?_, ?_, ?_, ?_, ?_, ?_⟩
  · intro h1
    rw [register, if_pos h1]
  · intro h1 h2
    rw [register, if_neg h1, if_pos h2]
  · intro h1 h2 h3
    rw [register, if_neg h1, if_neg (by simp [h2]), if_pos h3]
  · intro h1 h2 h3
    rw [register, if_neg h1, if_neg (by simp [h2]),
      if_neg (by omega), if_pos (by omega)]
  · intro s' h
    exact (register_ok_inv h).2.2.2
  · intro h1 h2 h3
    refine ⟨{ s with participants := s.participants ++ [⟨n, c⟩] }, ?_⟩
    rw [register, if_neg h1, if_neg (by simp [h2]),
      if_neg (by omega), if_neg (by omega)]

/-- Witness for C6: the registration tests — empty name, under- and
over-payment, duplicate registration — produce the expected errors, and
an exact payment succeeds. -/
theorem register_validation_order_witness :
    register initState "" registrationPrice 1 = Except.error .EmptyName
    ∧ register sysA "Monica" registrationPrice 1 =
        Except.error .AlreadyRegistered
    ∧ register initState "Monica" 10000000000000000 1 =
        Except.error .InsufficientFunds
    ∧ register initState "Monica" 1000000000000000000 1 =
        Except.error .WrongExactAmount
    ∧ ∃ s', register initState "Monica" registrationPrice 1 =
        Except.ok s' := by
  refine ⟨(register_validation_order initState "" registrationPrice 1).1 rfl,
    (register_validation_order sysA "Monica" registrationPrice 1).2.1
      (by decide) (by decide),
    (register_validation_order initState "Monica" 10000000000000000 1).2.2.1
      (by decide) (by decide) (by decide),
    (register_validation_order initState "Monica"
      1000000000000000000 1).2.2.2.1 (by decide) (by decide) (by decide),
    (register_validation_order initState "Monica"
      registrationPrice 1).2.2.2.2.2 (by decide) (by decide) rfl⟩

/-- C9: a valid registration raises the participant count by exactly one
and registers the identity; a second attempt by the same identity fails
with AlreadyRegistered; and every failing operation commits no state
change, leaving the store and the participant count exactly as they
were. -/
theorem register_effect_spec (s : PollSystem) (n : String) (a c : Nat)
    (s' : PollSystem) (h : register s n a c = .ok s') :
    numberOfParticipant s' = numberOfParticipant s + 1
    ∧ isRegistered s' c = true
    ∧ (∀ n' a', n' ≠ "" →
        register s' n' a' c = .error .AlreadyRegistered
        ∧ commit s' (register s' n' a' c) = s')
    ∧ (∀ t : PollSystem, ∀ nm aa cc e, register t nm aa cc = .error e →
        commit t (register t nm aa cc) = t
        ∧ numberOfParticipant (commit t (register t nm aa cc))
            = numberOfParticipant t)
    ∧ (∀ t : PollSystem, ∀ nm d dur b ad ch cr now e,
        createPoll t nm d dur b ad ch cr now = .error e →
        commit t (createPoll t nm d dur b ad ch cr now) = t)
    ∧ (∀ t : PollSystem, ∀ pid ch v now e, vote t pid ch v now = .error e →
        commit t (vote t pid ch v now) = t) := by
  obtain ⟨hs', hn, hreg, ha⟩ := register_ok_inv h
  have hregd : isRegistered s' c = true := by
    subst hs'
    simp [isRegistered, List.any_append]
  refine ⟨?_, hregd, ?_, ?_, ?_, ?_⟩
  · subst hs'
    simp [numberOfParticipant]
  · intro n' a' hn'
    constructor
    · rw [register, if_neg hn', if_pos hregd]
    · rw [register, if_neg hn', if_pos hregd]
      rfl
  · intro t nm aa cc e he
    rw [he]
    exact ⟨rfl, rfl⟩
  · intro t nm d dur b ad ch cr now e he
    rw [he]
    rfl
  · intro t pid ch v now e he
    rw [he]
    rfl

/-- Witness for C9: registering Monica in the empty store adds exactly
one participant and blocks re-registration. -/
theorem register_effect_spec_witness :
    register initState "Monica" registrationPrice 1 =
      Except.ok ⟨[⟨"Monica", 1⟩], []⟩
    ∧ numberOfParticipant (⟨[⟨"Monica", 1⟩], []⟩ : PollSystem)
        = numberOfParticipant initState + 1
    ∧ register (⟨[⟨"Monica", 1⟩], []⟩ : PollSystem) "Monica"
        registrationPrice 1 = Except.error .AlreadyRegistered := by
  have h := register_effect_spec initState "Monica" registrationPrice 1
    ⟨[⟨"Monica", 1⟩], []⟩ rfl
  exact ⟨rfl, h.1, (h.2.2.1 "Monica" registrationPrice (by decide)).1⟩

/-- C10: immediately after a successful createPoll the stored record has
window state InProgress at creation time, zero votes, empty voter and
voted-choice lists, an empty (derived) result with tie false, and carries
the creation arguments verbatim. -/
theorem createPoll_initial_state (s : PollSystem) (n d : String)
    (dur : Nat) (b ad : Bool) (ch : List Nat) (cr now : Nat)
    (s' : PollSystem) (h : createPoll s n d dur b ad ch cr now = .ok s') :
    ∃ p : Poll, s'.polls = s.polls ++ [p]
      ∧ p.pollId = s.polls.length + 1
      ∧ p.name = n ∧ p.description = d ∧ p.creationTime = now
      ∧ p.votingDuration = dur ∧ p.blind = b ∧ p.aboutDAO = ad
      ∧ p.choseFrom = ch ∧ p.votes = []
      ∧ windowState p now = .InProgress
      ∧ p.votes.length = 0
      ∧ p.votes.map Prod.fst = [] ∧ p.votes.map Prod.snd = []
      ∧ winnersOf p.votes = []
      ∧ decide (1 < (winnersOf p.votes).length) = false := by
  obtain ⟨hs', hn, hd, hdur, hch, hall, hreg⟩ := createPoll_ok_inv h
  subst hs'
  refine ⟨_, rfl, rfl, rfl, rfl, rfl, rfl, rfl, rfl, rfl, rfl, ?_,
    rfl, rfl, rfl, rfl, rfl⟩
  rw [windowState]
  dsimp only
  rw [if_pos (show now < now + dur from by omega)]

/-- The poll record produced by the witness createPoll call below. -/
def pollX : Poll := ⟨2, "P2", "D2", 200, 10, true, false, [1, 2], []⟩

/-- Witness for C10: a second poll created at time 200 on the scenario
store gets id 2, is in progress at its creation time, and starts with no
votes. -/
theorem createPoll_initial_state_witness :
    createPoll sysA "P2" "D2" 10 true false [1, 2] 0 200 =
      Except.ok ⟨sysA.participants, sysA.polls ++ [pollX]⟩
    ∧ windowState pollX 200 = .InProgress ∧ pollX.votes = [] := by
  obtain ⟨p, hpolls, hrest⟩ := createPoll_initial_state sysA "P2" "D2" 10
    true false [1, 2] 0 200 ⟨sysA.participants, sysA.polls ++ [pollX]⟩ rfl
  have hp : pollX = p := by
    have := List.append_cancel_left
      (show sysA.polls ++ [pollX] = sysA.polls ++ [p] from hpolls)
    simpa using this
  exact ⟨rfl, hp ▸ hrest.2.2.2.2.2.2.2.2.2.1, hp ▸ hrest.2.2.2.2.2.2.2.2.1⟩

/-- C7: once the window has closed every vote attempt by every caller
fails with the single error kind PollEnded, and computeResult succeeds
with windowState Ended; both are pure functions of the store and the
time, hence deterministic and repeatable across calls. -/
theorem poll_ended_spec (s : PollSystem) (pid now : Nat) (p : Poll)
    (hp : findPoll s pid = some p)
    (hend : p.creationTime + p.votingDuration ≤ now) :
    (∀ voter choice, vote s pid choice voter now = .error .PollEnded)
    ∧ windowState p now = .Ended
    ∧ computeResult s pid now =
        .ok ⟨decide (1 < (winnersOf p.votes).length), winnersOf p.votes,
          .Ended, p.blind⟩ := by
  have hw : windowState p now = .Ended := by
    rw [windowState, if_neg (by omega)]
  refine ⟨?_, hw, ?_⟩
  · intro voter choice
    rw [vote_eq_of_found hp, if_pos hend]
  · rw [computeResult_eq hp, if_neg ?_, hw]
    rintro ⟨_, hcontra⟩
    rw [hw] at hcontra
    cases hcontra

/-- Witness for C7: the scenario poll at time 111 (window closed) rejects
every vote with PollEnded and reports an Ended outcome. -/
theorem poll_ended_spec_witness :
    vote sysA 1 1 1 111 = Except.error .PollEnded
    ∧ vote sysA 1 2 0 111 = Except.error .PollEnded
    ∧ windowState pollA 111 = .Ended
    ∧ computeResult sysA 1 111 = Except.ok ⟨false, [2], .Ended, false⟩ := by
  have h := poll_ended_spec sysA 1 111 pollA rfl (by decide)
  refine ⟨h.1 1 1, h.1 0 2, h.2.1, ?_⟩
  rw [h.2.2]
  rfl

/-- The store reached by registering Ross in the fresh deployment. -/
def regState : PollSystem := ⟨[⟨"Ross", 0⟩], []⟩

/-- The store reached from `regState` by Ross creating one poll at time
100. -/
def onePollState : PollSystem :=
  ⟨[⟨"Ross", 0⟩], [⟨1, "Poll", "Test poll", 100, 10, true, true, [1, 2], []⟩]⟩

/-- C8: in every reachable store, poll ids are the sequence 1, 2, ... in
list order (so ids start at 1, increase strictly, and are unique),
listPolls returns exactly the stored poll list without mutating anything,
and every further successful operation extends the id sequence as a
prefix — ids are never deleted or reused. -/
theorem poll_ids_spec (s : PollSystem) (h : Reachable s) :
    (∀ i (hi : i < s.polls.length), (s.polls.get ⟨i, hi⟩).pollId = i + 1)
    ∧ (s.polls.map Poll.pollId).Pairwise (· < ·)
    ∧ viewAllPolls s = s.polls
    ∧ (∀ s', Step s s' →
        List.IsPrefix (s.polls.map Poll.pollId)
          (s'.polls.map Poll.pollId)) := by
  have hseq : ∀ i (hi : i < s.polls.length),
      (s.polls.get ⟨i, hi⟩).pollId = i + 1 := by
    induction h with
    | init =>
      intro i hi
      simp [initState] at hi
    | @step t t' hs hstep ih =>
      rcases hstep with ⟨n, a, c, t2, heq⟩ |
        ⟨n, d, dur, b, ad, ch, cr, now, t2, heq⟩ |
        ⟨pid, c, v, now, t2, heq⟩
      · obtain ⟨ht', _, _, _⟩ := register_ok_inv heq
        subst ht'
        exact ih
      · obtain ⟨ht', _, _, _, _, _, _⟩ := createPoll_ok_inv heq
        subst ht'
        intro i hi
        dsimp only at hi ⊢
        rcases Nat.lt_or_ge i t.polls.length with hlt | hge
        · rw [List.get_eq_getElem, List.getElem_append_left hlt]
          exact ih i hlt
        · have hlen : i = t.polls.length := by
            simp only [List.length_append, List.length_singleton] at hi
            omega
          subst hlen
          rw [List.get_eq_getElem, List.getElem_append_right (le_refl _)]
          simp
      · obtain ⟨p, _, _, _, ht'⟩ := vote_ok_inv heq
        subst ht'
        intro i hi
        dsimp only at hi ⊢
        rw [List.get_eq_getElem, List.getElem_map]
        have hlen : i < t.polls.length := by simpa using hi
        have hid : ∀ q : Poll,
            (if q.pollId = pid then
              { q with votes := setVote q.votes v c } else q).pollId
            = q.pollId := by
          intro q
          split <;> rfl
        rw [hid]
        exact ih i hlen
  have hmap : s.polls.map Poll.pollId
      = (List.range s.polls.length).map (· + 1) := by
    apply List.ext_getElem
    · simp
    · intro i hi hj
      simp only [List.getElem_map, List.getElem_range]
      exact hseq i (by simpa using hi)
  refine ⟨hseq, ?_, rfl, ?_⟩
  · rw [hmap]
    exact (List.pairwise_lt_range _).map _ (fun a b hab => by omega)
  · intro s' hstep
    rcases hstep with ⟨n, a, c, t2, heq⟩ |
      ⟨n, d, dur, b, ad, ch, cr, now, t2, heq⟩ |
      ⟨pid, c, v, now, t2, heq⟩
    · obtain ⟨ht', _, _, _⟩ := register_ok_inv heq
      subst ht'
      exact List.prefix_refl _
    · obtain ⟨ht', _, _, _, _, _, _⟩ := createPoll_ok_inv heq
      subst ht'
      dsimp only
      rw [List.map_append]
      exact List.prefix_append _ _
    · obtain ⟨p, _, _, _, ht'⟩ := vote_ok_inv heq
      subst ht'
      dsimp only
      rw [List.map_map]
      have hcomp : ∀ r ∈ s.polls,
          (Poll.pollId ∘ fun q => if q.pollId = pid then
            { q with votes := setVote q.votes v c } else q) r
          = Poll.pollId r := by
        intro r _
        simp only [Function.comp_apply]
        split <;> rfl
      rw [List.map_congr_left hcomp]

/-- Witness for C8: the two-step reachable store holding one poll has id
sequence [1], strictly increasing, and listPolls reports it without
change. -/
theorem poll_ids_spec_witness :
    (onePollState.polls.map Poll.pollId).Pairwise (· < ·)
    ∧ viewAllPolls onePollState = onePollState.polls := by
  have r1 : Reachable regState :=
    Reachable.step Reachable.init
      (Step.reg initState "Ross" registrationPrice 0 regState rfl)
  have r2 : Reachable onePollState :=
    Reachable.step r1
      (Step.create regState "Poll" "Test poll" 10 true true [1, 2] 0 100
        onePollState rfl)
  have h := poll_ids_spec onePollState r2
  exact ⟨h.2.1, h.2.2.1⟩

end Poll571G
